import Mathlib

/-!
Verification of the monitoring/callback subsystem in
`src/tensorpack/callbacks/monitor.py`.

Scalar values carried around by the code are Python floats; here they are
modelled exactly as rationals (`ℚ`), since the code performs no arithmetic on
them — it only coerces, stores and forwards them.  A `tf.Summary` is modelled
as its list of tagged values, keeping only the distinction the code inspects
(`WhichOneof == simple_value` or not).  Fan-out to the ordered monitor list is
modelled as a trace of deliveries `(sink index, call)`; the hub owns `sinks`
caller-supplied monitors at indices `0 .. sinks-1` plus the internal
`ScalarHistory` store appended at index `sinks` (mirroring
`self._monitors = monitors + [self._scalar_history]`).
-/

/-- A value carried by a `simple_value` summary field, or a non-scalar field
the dispatch loop skips (`WhichOneof('value') ≠ 'simple_value'`). -/
inductive SummaryValue where
  | simpleValue (v : ℚ)
  | other
  deriving DecidableEq

/-- A `tf.Summary`: a list of `(tag, value)` entries. -/
structure Summary where
  values : List (String × SummaryValue)
  deriving DecidableEq

/-- The trainer context handed to `setup_graph`; the only field this module
reads is `config.steps_per_epoch`. -/
structure Trainer where
  steps_per_epoch : Nat
  deriving DecidableEq

/-- A Python value passed to `Monitors.put`: a number, a numeric string
(both coercible by `float()`), or a non-numeric value on which `float()`
raises. -/
inductive PyVal where
  | num (q : ℚ)
  | numStr (q : ℚ)
  | nonNumeric
  deriving DecidableEq

/-- Python `float(val)`: `some` of the numeric value when coercion succeeds,
`none` when `float()` raises. -/
def pyFloat : PyVal → Option ℚ
  | PyVal.num q => some q
  | PyVal.numStr q => some q
  | PyVal.nonNumeric => none

/-- One method call delivered to a monitor during fan-out. -/
inductive SinkCall where
  | setupGraph (t : Trainer)
  | putSummary (s : Summary)
  | putScalar (name : String) (val : ℚ)
  deriving DecidableEq

/- ### Tag normalization: `re.sub('tower[p0-9]+/', '', tag)` then stripping a
trailing `-summary` (monitor.py lines 89-92). -/

/-- A character matched by the regex class `[p0-9]`. -/
def isTowerChar (c : Char) : Bool := c == 'p' || c.isDigit

/-- The literal part `tower` of the pattern `tower[p0-9]+/`. -/
def towerLit : List Char := ['t', 'o', 'w', 'e', 'r']

/-- After the literal `tower`, consume a nonempty greedy run of `[p0-9]`
characters followed by `/`; returns the characters after the match.  `seen`
records whether at least one `[p0-9]` character was consumed (the `+`). -/
def matchTowerBody : List Char → Bool → Option (List Char)
  | [], _ => none
  | c :: rest, seen =>
    if isTowerChar c then matchTowerBody rest true
    else if (c == '/') && seen then some rest
    else none

/-- Try to match the regex `tower[p0-9]+/` at the start of `cs`; on success
return the remaining characters. -/
def matchTowerAt (cs : List Char) : Option (List Char) :=
  if towerLit.isPrefixOf cs then matchTowerBody (cs.drop 5) false else none

/-- Fuelled scan implementing `re.sub('tower[p0-9]+/', '', ·)`: at each
position try the pattern; on a match drop it and continue after the match,
otherwise emit the character and advance.  `fuel ≥ length` suffices since
every step consumes at least one character. -/
def subTowerFuel : Nat → List Char → List Char
  | 0, cs => cs
  | fuel + 1, cs =>
    match cs with
    | [] => []
    | c :: rest =>
      match matchTowerAt (c :: rest) with
      | some r => subTowerFuel fuel r
      | none => c :: subTowerFuel fuel rest

/-- `re.sub('tower[p0-9]+/', '', cs)` (monitor.py line 89). -/
def subTower (cs : List Char) : List Char := subTowerFuel cs.length cs

/-- The characters of the literal suffix `-summary` (monitor.py line 90). -/
def summarySuffix : List Char := ['-', 's', 'u', 'm', 'm', 'a', 'r', 'y']

/-- `tag[:-len('-summary')] if tag.endswith('-summary') else tag`
(monitor.py lines 91-92). -/
def stripSummarySuffix (cs : List Char) : List Char :=
  if summarySuffix.isSuffixOf cs then cs.take (cs.length - summarySuffix.length) else cs

/-- Full tag normalization applied to a `simple_value` field before its scalar
dispatch (monitor.py lines 89-92). -/
def normalizeTag (tag : String) : String :=
  String.mk (stripSummarySuffix (subTower tag.data))

/- ### ScalarHistory (monitor.py lines 246-264). -/

/-- The `defaultdict(list)` of `ScalarHistory`: every name maps to its list of
recorded values, absent names to `[]`. -/
abbrev ScalarHistory := String → List ℚ

/-- The store right after `ScalarHistory._setup_graph`
(`self._dic = defaultdict(list)`). -/
def ScalarHistory.empty : ScalarHistory := fun _ => []

/-- `ScalarHistory.put_scalar`: `self._dic[name].append(float(val))`
(monitor.py lines 253-254). -/
def ScalarHistory.put_scalar (st : ScalarHistory) (name : String) (val : ℚ) : ScalarHistory :=
  fun n => if n = name then st n ++ [val] else st n

/-- `ScalarHistory.get_history`: `return self._dic[name]`
(monitor.py lines 263-264). -/
def ScalarHistory.get_history (st : ScalarHistory) (name : String) : List ℚ :=
  st name

/-- `ScalarHistory.get_latest` (monitor.py lines 256-261): raise
`KeyError("Invalid key: ...")` on an empty history, else return `hist[-1]`. -/
def ScalarHistory.get_latest (st : ScalarHistory) (name : String) : Except String ℚ :=
  if h : (st name).length = 0 then
    Except.error ("Invalid key: " ++ name)
  else
    Except.ok ((st name).getLast (fun hnil => h (by rw [hnil]; rfl)))

/-- A finite sequence of `put_scalar` calls, applied in order. -/
def ScalarHistory.recordAll (st : ScalarHistory) (ops : List (String × ℚ)) : ScalarHistory :=
  ops.foldl (fun s p => ScalarHistory.put_scalar s p.1 p.2) st

/- ### The hub `Monitors` (monitor.py lines 60-115). -/

/-- State of a `Monitors` hub: `sinks` caller-supplied monitors (indices
`0 .. sinks-1`), the trainer context stored by `setup_graph`, and the internal
`ScalarHistory` appended at index `sinks`. -/
structure MonitorsState where
  sinks : Nat
  trainer : Option Trainer
  scalar_history : ScalarHistory

/-- `Monitors._dispatch_put_scalar` (lines 75-77): deliver `put_scalar` to
every monitor of a hub with `m` monitors, in registration order. -/
def dispatchPutScalar (m : Nat) (name : String) (val : ℚ) : List (Nat × SinkCall) :=
  (List.range m).map (fun j => (j, SinkCall.putScalar name val))

/-- `Monitors._dispatch_put_summary` (lines 71-73): deliver `put_summary` to
every monitor of a hub with `m` monitors, in registration order. -/
def dispatchPutSummary (m : Nat) (s : Summary) : List (Nat × SinkCall) :=
  (List.range m).map (fun j => (j, SinkCall.putSummary s))

/-- `Monitors.put_scalar` (lines 99-103): dispatch the scalar to every
monitor, then synthesize a one-value summary `{tag: name, simple_value: val}`
and dispatch it to every monitor.  Returns the new hub state (the internal
store appended the value) and the delivery trace. -/
def Monitors.put_scalar (st : MonitorsState) (name : String) (val : ℚ) :
    MonitorsState × List (Nat × SinkCall) :=
  ({ st with scalar_history := ScalarHistory.put_scalar st.scalar_history name val },
   dispatchPutScalar (st.sinks + 1) name val
     ++ dispatchPutSummary (st.sinks + 1) (Summary.mk [(name, SummaryValue.simpleValue val)]))

/-- `Monitors.put` (lines 95-97): `val = float(val)` — a failing coercion
raises out of the hub — then `self.put_scalar(name, val)`. -/
def Monitors.put (st : MonitorsState) (name : String) (val : PyVal) :
    Except String (MonitorsState × List (Nat × SinkCall)) :=
  match pyFloat val with
  | none => Except.error "float() failed: non-numeric value"
  | some q => Except.ok (Monitors.put_scalar st name q)

/-- The `simple_value` fields of a summary, in order (the loop over
`summary.value` at lines 87-88 keeping `WhichOneof('value') == 'simple_value'`). -/
def Monitors.scalarFields (s : Summary) : List (String × ℚ) :=
  s.values.filterMap (fun p =>
    match p.2 with
    | SummaryValue.simpleValue v => some (p.1, v)
    | SummaryValue.other => none)

/-- The scalar fields of a summary after tag normalization (lines 89-92). -/
def Monitors.normalizedScalarFields (s : Summary) : List (String × ℚ) :=
  (Monitors.scalarFields s).map (fun p => (normalizeTag p.1, p.2))

/-- `Monitors.put_summary` (lines 79-93) on an already-decoded summary:
dispatch the raw summary to every monitor, then for each `simple_value` field
dispatch the normalized `(tag, value)` through `_dispatch_put_scalar` (so no
per-field summary is synthesized).  The internal store appends each
normalized scalar in field order. -/
def Monitors.put_summary (st : MonitorsState) (s : Summary) :
    MonitorsState × List (Nat × SinkCall) :=
  ({ st with
      scalar_history := (Monitors.normalizedScalarFields s).foldl
        (fun h p => ScalarHistory.put_scalar h p.1 p.2) st.scalar_history },
   dispatchPutSummary (st.sinks + 1) s
     ++ ((Monitors.normalizedScalarFields s).map
          (fun p => dispatchPutScalar (st.sinks + 1) p.1 p.2)).flatten)

/-- `Monitors._setup_graph` (lines 68-69), reached through
`TrainingMonitor.setup_graph` (lines 30-32): store the trainer context, then
call `setup_graph` on the internal `ScalarHistory` only (which re-creates its
dict).  No caller-supplied monitor receives a call. -/
def Monitors.setup_graph (st : MonitorsState) (t : Trainer) :
    MonitorsState × List (Nat × SinkCall) :=
  ({ st with trainer := some t, scalar_history := ScalarHistory.empty },
   [(st.sinks, SinkCall.setupGraph t)])

/- ### JSONWriter (monitor.py lines 142-198). -/

/-- A JSON row: an insertion-ordered Python dict from names to floats. -/
abbrev Row := List (String × ℚ)

/-- Python dict assignment `row[k] = v`: overwrite the value in place when the
key is present, otherwise append the new pair. -/
def Row.set : Row → String → ℚ → Row
  | [], k, v => [(k, v)]
  | (k', v') :: rest, k, v =>
    if k' = k then (k, v) :: rest else (k', v') :: Row.set rest k v

/-- Python dict lookup `row[k]` as an option. -/
def Row.get : Row → String → Option ℚ
  | [], _ => none
  | (k', v) :: rest, k => if k' = k then some v else Row.get rest k

/-- State of a `JSONWriter` after `_setup_graph`: the accumulated rows
(`self._stats`), the pending row (`self._stat_now`), and the rows persisted in
`stat.json`. -/
structure JSONWriterState where
  stats : List Row
  stat_now : Row
  fileContent : List Row
  deriving DecidableEq

/-- `JSONWriter.put_scalar` (lines 178-179):
`self._stat_now[name] = float(val)`. -/
def JSONWriter.put_scalar (st : JSONWriterState) (name : String) (val : ℚ) : JSONWriterState :=
  { st with stat_now := Row.set st.stat_now name val }

/-- `JSONWriter._push` (lines 181-189): if the pending row is nonempty, stamp
it with `epoch_num` and `global_step`, append it to `self._stats`, clear the
pending row and persist `self._stats` (`_write_stat`, success path); otherwise
do nothing. -/
def JSONWriter.push (epoch_num global_step : ℚ) (st : JSONWriterState) : JSONWriterState :=
  if st.stat_now.length ≠ 0 then
    { stats := st.stats ++ [Row.set (Row.set st.stat_now "epoch_num" epoch_num) "global_step" global_step],
      stat_now := [],
      fileContent := st.stats ++ [Row.set (Row.set st.stat_now "epoch_num" epoch_num) "global_step" global_step] }
  else st

/- ### No-op fallback sinks (monitor.py lines 56-57, 122-127, 146-151). -/

/-- Whether `logger.LOG_DIR` is set to a truthy value. -/
def LOG_DIR_isSet : Option String → Bool
  | none => false
  | some s => !s.isEmpty

/-- Result of `JSONWriter.__new__` / `TFSummaryWriter.__new__`: either a real
sink or the `NoOpMonitor` fallback. -/
inductive ConstructedSink where
  | real
  | noOp
  deriving DecidableEq

/-- `JSONWriter.__new__` (lines 146-151): with no log directory, warn and
return a `NoOpMonitor` instead of a `JSONWriter`. -/
def JSONWriter.new (log_dir : Option String) : ConstructedSink :=
  if LOG_DIR_isSet log_dir then ConstructedSink.real else ConstructedSink.noOp

/-- `TFSummaryWriter.__new__` (lines 122-127): with no log directory, warn and
return a `NoOpMonitor` instead of a `TFSummaryWriter`. -/
def TFSummaryWriter.new (log_dir : Option String) : ConstructedSink :=
  if LOG_DIR_isSet log_dir then ConstructedSink.real else ConstructedSink.noOp

/-- State of a `NoOpMonitor` (lines 56-57): it only carries the `trainer`
attribute assigned by `TrainingMonitor.setup_graph`. -/
structure NoOpMonitorState where
  trainer : Option Trainer
  deriving DecidableEq

/-- `TrainingMonitor.setup_graph` on a `NoOpMonitor` (lines 30-36): store the
trainer; `_setup_graph` is `pass`.  Never raises. -/
def NoOpMonitor.setup_graph (st : NoOpMonitorState) (t : Trainer) :
    Except String NoOpMonitorState :=
  Except.ok { st with trainer := some t }

/-- `TrainingMonitor.put_summary` on a `NoOpMonitor` (lines 38-42): `pass`. -/
def NoOpMonitor.put_summary (st : NoOpMonitorState) (s : Summary) :
    Except String NoOpMonitorState :=
  Except.ok st

/-- `TrainingMonitor.put` on a `NoOpMonitor` (lines 44-48): `pass` — the value
is not even coerced, so a non-numeric value does not raise. -/
def NoOpMonitor.put (st : NoOpMonitorState) (name : String) (val : PyVal) :
    Except String NoOpMonitorState :=
  Except.ok st

/-- `TrainingMonitor.put_scalar` on a `NoOpMonitor` (lines 50-51):
`self.put(name, val)`. -/
def NoOpMonitor.put_scalar (st : NoOpMonitorState) (name : String) (val : PyVal) :
    Except String NoOpMonitorState :=
  NoOpMonitor.put st name val

/-- Modelled from the spec: the step-boundary trigger default comes from the
`Callback` base class (`src/tensorpack/callbacks/base.py`, imported at line 16
but absent from the sources); spec section 4.3 states the periodic hooks are
no-ops by default. -/
def NoOpMonitor.trigger_step (st : NoOpMonitorState) : Except String NoOpMonitorState :=
  Except.ok st

/-- Modelled from the spec: the epoch-boundary trigger default comes from the
`Callback` base class (absent from the sources); spec section 4.3 states the
periodic hooks are no-ops by default. -/
def NoOpMonitor.trigger_epoch (st : NoOpMonitorState) : Except String NoOpMonitorState :=
  Except.ok st

/-- Modelled from the spec: the teardown default comes from the `Callback`
base class (absent from the sources); spec section 4.3 states teardown is a
no-op by default. -/
def NoOpMonitor.after_train (st : NoOpMonitorState) : Except String NoOpMonitorState :=
  Except.ok st

/- ### Helper lemmas about the `tower[p0-9]+/` scan. -/

theorem matchTowerBody_length {cs : List Char} {seen : Bool} {r : List Char}
    (h : matchTowerBody cs seen = some r) : r.length < cs.length := by
  induction cs generalizing seen with
  | nil => simp [matchTowerBody] at h
  | cons c rest ih =>
    simp only [matchTowerBody] at h
    split at h
    · exact Nat.lt_trans (ih h) (Nat.lt_succ_self _)
    · split at h
      · cases h
        exact Nat.lt_succ_self _
      · cases h

theorem matchTowerAt_length {cs r : List Char} (h : matchTowerAt cs = some r) :
    r.length < cs.length := by
  unfold matchTowerAt at h
  split at h
  · have h1 := matchTowerBody_length h
    have h2 : (cs.drop 5).length = cs.length - 5 := List.length_drop 5 cs
    omega
  · cases h

theorem subTowerFuel_nil (f : Nat) : subTowerFuel f [] = [] := by
  cases f <;> rfl

theorem subTowerFuel_congr :
    ∀ (f1 : Nat) (cs : List Char) (f2 : Nat), cs.length ≤ f1 → cs.length ≤ f2 →
      subTowerFuel f1 cs = subTowerFuel f2 cs := by
  intro f1
  induction f1 with
  | zero =>
    intro cs f2 h1 _
    have hnil : cs = [] := List.length_eq_zero.mp (Nat.le_zero.mp h1)
    subst hnil
    rw [subTowerFuel_nil, subTowerFuel_nil]
  | succ f ih =>
    intro cs f2 h1 h2
    cases cs with
    | nil => rw [subTowerFuel_nil, subTowerFuel_nil]
    | cons c rest =>
      cases f2 with
      | zero => simp at h2
      | succ f2' =>
        show (match matchTowerAt (c :: rest) with
              | some r => subTowerFuel f r
              | none => c :: subTowerFuel f rest) =
             (match matchTowerAt (c :: rest) with
              | some r => subTowerFuel f2' r
              | none => c :: subTowerFuel f2' rest)
        cases hm : matchTowerAt (c :: rest) with
        | some r =>
          have hl := matchTowerAt_length hm
          simp only [List.length_cons] at h1 h2 hl
          exact ih r f2' (by omega) (by omega)
        | none =>
          simp only [List.length_cons] at h1 h2
          exact congrArg (List.cons c) (ih rest f2' (by omega) (by omega))

theorem subTower_cons_none {c : Char} {cs : List Char}
    (h : matchTowerAt (c :: cs) = none) : subTower (c :: cs) = c :: subTower cs := by
  unfold subTower
  rw [List.length_cons]
  show (match matchTowerAt (c :: cs) with
        | some r => subTowerFuel cs.length r
        | none => c :: subTowerFuel cs.length cs) = _
  rw [h]

theorem subTower_step_some {cs r : List Char} (h : matchTowerAt cs = some r) :
    subTower cs = subTower r := by
  cases cs with
  | nil => simp [matchTowerAt, towerLit, List.isPrefixOf] at h
  | cons c rest =>
    unfold subTower
    rw [List.length_cons]
    show (match matchTowerAt (c :: rest) with
          | some r' => subTowerFuel rest.length r'
          | none => c :: subTowerFuel rest.length rest) = _
    rw [h]
    have hl := matchTowerAt_length h
    simp only [List.length_cons] at hl
    exact subTowerFuel_congr rest.length r r.length (by omega) (Nat.le_refl _)

theorem matchTowerAt_cons_ne {c : Char} (cs : List Char) (hc : c ≠ 't') :
    matchTowerAt (c :: cs) = none := by
  have hb : ('t' == c) = false := beq_eq_false_iff_ne.mpr (Ne.symm hc)
  simp [matchTowerAt, towerLit, List.isPrefixOf, hb]

theorem matchTowerAt_tower_append (body : List Char) :
    matchTowerAt (towerLit ++ body) = matchTowerBody body false := by
  simp [matchTowerAt, towerLit, List.isPrefixOf, List.drop]

theorem matchTowerBody_run :
    ∀ (run : List Char), (∀ c ∈ run, isTowerChar c = true) →
      ∀ (seen : Bool) (rest : List Char), (run = [] → seen = true) →
        matchTowerBody (run ++ '/' :: rest) seen = some rest := by
  intro run
  induction run with
  | nil =>
    intro _ seen rest hseen
    rw [hseen rfl]
    have h1 : isTowerChar '/' = false := by decide
    simp [matchTowerBody, h1]
  | cons c cs ih =>
    intro h seen rest _
    have hc : isTowerChar c = true := h c (List.mem_cons_self c cs)
    simp only [List.cons_append, matchTowerBody, hc, if_true]
    exact ih (fun d hd => h d (List.mem_cons_of_mem c hd)) true rest (fun _ => rfl)

/- ### Claims about `ScalarHistory`. -/

/-- Claim C2: `get_latest(name)` returns the last element of
`get_history(name)` whenever at least one value was recorded for `name`, and
fails with the `KeyError` (`NotFoundError`) whenever zero values were recorded
for it — including a series auto-created by a query but never written, which
in the `defaultdict` model is exactly an empty history. -/
theorem get_latest_is_last_or_error (st : ScalarHistory) (name : String) :
    (∀ v : ℚ, (ScalarHistory.get_history st name).getLast? = some v →
      ScalarHistory.get_latest st name = Except.ok v) ∧
    (ScalarHistory.get_history st name = [] →
      ScalarHistory.get_latest st name = Except.error ("Invalid key: " ++ name)) := by
  constructor
  · intro v h
    have hne : st name ≠ [] := by
      intro h0
      rw [ScalarHistory.get_history, h0] at h
      simp at h
    have hlen : ¬ (st name).length = 0 := fun h0 => hne (List.length_eq_zero.mp h0)
    unfold ScalarHistory.get_latest
    rw [dif_neg hlen]
    have h2 : (st name).getLast? = some ((st name).getLast hne) :=
      List.getLast?_eq_getLast (st name) hne
    rw [ScalarHistory.get_history] at h
    rw [h] at h2
    exact congrArg Except.ok (Option.some.inj h2).symm
  · intro h
    rw [ScalarHistory.get_history] at h
    unfold ScalarHistory.get_latest
    rw [dif_pos (by rw [h]; rfl)]

/-- Witness for C2: after recording `3` under `"x"`, `get_latest "x"` is
`ok 3`; on the fresh store, `get_latest "y"` raises. -/
theorem get_latest_is_last_or_error_witness :
    ScalarHistory.get_latest (ScalarHistory.put_scalar ScalarHistory.empty "x" 3) "x"
      = Except.ok 3 ∧
    ScalarHistory.get_latest ScalarHistory.empty "y"
      = Except.error ("Invalid key: " ++ "y") := by
  constructor
  · exact (get_latest_is_last_or_error
      (ScalarHistory.put_scalar ScalarHistory.empty "x" 3) "x").1 3 (by decide)
  · exact (get_latest_is_last_or_error ScalarHistory.empty "y").2 rfl

theorem get_history_recordAll (ops : List (String × ℚ)) :
    ∀ (st : ScalarHistory) (name : String),
      ScalarHistory.get_history (ScalarHistory.recordAll st ops) name
        = ScalarHistory.get_history st name
          ++ (ops.filter (fun p => p.1 == name)).map Prod.snd := by
  induction ops with
  | nil =>
    intro st name
    simp [ScalarHistory.recordAll]
  | cons p rest ih =>
    intro st name
    have hstep : ScalarHistory.recordAll st (p :: rest)
        = ScalarHistory.recordAll (ScalarHistory.put_scalar st p.1 p.2) rest := rfl
    rw [hstep, ih]
    by_cases h : p.1 = name
    · simp [ScalarHistory.get_history, ScalarHistory.put_scalar, h, List.filter_cons]
    · have h2 : ¬ name = p.1 := fun e => h e.symm
      simp [ScalarHistory.get_history, ScalarHistory.put_scalar, h, h2, List.filter_cons]

/-- Claim C3: recording `v1, v2, …` under `name` makes `get_history name`
return exactly `[v1, v2, …]` in call order (also stated for arbitrary
interleavings with other names), and a name with no recorded values yields
the empty list rather than failing. -/
theorem get_history_append_only (name : String) :
    (∀ vs : List ℚ,
      ScalarHistory.get_history
        (ScalarHistory.recordAll ScalarHistory.empty (vs.map (fun v => (name, v)))) name
        = vs) ∧
    (∀ ops : List (String × ℚ),
      ScalarHistory.get_history (ScalarHistory.recordAll ScalarHistory.empty ops) name
        = (ops.filter (fun p => p.1 == name)).map Prod.snd) ∧
    ScalarHistory.get_history ScalarHistory.empty name = [] := by
  refine ⟨?_, ?_, rfl⟩
  · intro vs
    rw [get_history_recordAll]
    simp [ScalarHistory.get_history, ScalarHistory.empty, List.filter_map, Function.comp]
  · intro ops
    rw [get_history_recordAll]
    simp [ScalarHistory.get_history, ScalarHistory.empty]

/- ### Claims about the hub fan-out. -/

theorem filter_dispatch_range {m i : Nat} (c : SinkCall) (h : i < m) :
    ((List.range m).map (fun j => (j, c))).filter (fun e => e.1 == i) = [(i, c)] := by
  induction m with
  | zero => omega
  | succ n ih =>
    rw [List.range_succ, List.map_append, List.filter_append]
    by_cases h2 : i < n
    · rw [ih h2]
      have hne : (n == i) = false := beq_eq_false_iff_ne.mpr (by omega)
      simp [List.filter_cons, hne]
    · have hin : i = n := by omega
      subst hin
      have hemp : ((List.range i).map (fun j => (j, c))).filter (fun e => e.1 == i) = [] := by
        apply List.filter_eq_nil_iff.mpr
        intro a ha
        rcases List.mem_map.mp ha with ⟨j, hj, rfl⟩
        have hji : j < i := List.mem_range.mp hj
        simp only []
        exact (beq_eq_false_iff_ne.mpr (by omega) : (j == i) = false) ▸ (by simp)
      rw [hemp]
      simp

/-- Claim C1: a `Monitors.put_scalar(name, val)` call delivers to every
monitor of the hub — the `sinks` caller-supplied ones and the internal
scalar-history store at index `sinks` — exactly one `put_scalar(name, val)`
call and exactly one `put_summary` call whose summary's only field is
`(name, simple_value val)`; no channel delivers twice. -/
theorem put_scalar_dual_channel_exactly_once (st : MonitorsState) (name : String)
    (val : ℚ) (i : Nat) (h : i < st.sinks + 1) :
    ((Monitors.put_scalar st name val).2.filter (fun e => e.1 == i))
      = [(i, SinkCall.putScalar name val),
         (i, SinkCall.putSummary (Summary.mk [(name, SummaryValue.simpleValue val)]))] := by
  show ((dispatchPutScalar (st.sinks + 1) name val
      ++ dispatchPutSummary (st.sinks + 1)
          (Summary.mk [(name, SummaryValue.simpleValue val)])).filter (fun e => e.1 == i)) = _
  rw [List.filter_append]
  unfold dispatchPutScalar dispatchPutSummary
  rw [filter_dispatch_range _ h, filter_dispatch_range _ h]
  rfl

/-- Witness for C1: a hub with one caller-supplied sink; sink 0 observes
exactly the scalar call and the one-field summary, once each. -/
theorem put_scalar_dual_channel_exactly_once_witness :
    ((Monitors.put_scalar ⟨1, none, ScalarHistory.empty⟩ "x" 3).2.filter
        (fun e => e.1 == 0))
      = [(0, SinkCall.putScalar "x" 3),
         (0, SinkCall.putSummary (Summary.mk [("x", SummaryValue.simpleValue 3)]))] :=
  put_scalar_dual_channel_exactly_once ⟨1, none, ScalarHistory.empty⟩ "x" 3 0
    (by decide)

/-- Claim C4: in `put_summary`, the field `"tower0/loss-summary"` is
dispatched as scalar name `"loss"`, `"accuracy-summary"` as `"accuracy"`,
and `"raw_count"` unchanged — the tower segment is stripped first, then the
trailing `-summary` literal; the delivery trace is the raw summary to every
monitor followed by the three normalized scalar dispatches in field order. -/
theorem put_summary_name_normalization (st : MonitorsState) (a b c : ℚ) :
    (Monitors.put_summary st
      (Summary.mk [("tower0/loss-summary", SummaryValue.simpleValue a),
                   ("accuracy-summary", SummaryValue.simpleValue b),
                   ("raw_count", SummaryValue.simpleValue c)])).2
    = dispatchPutSummary (st.sinks + 1)
        (Summary.mk [("tower0/loss-summary", SummaryValue.simpleValue a),
                     ("accuracy-summary", SummaryValue.simpleValue b),
                     ("raw_count", SummaryValue.simpleValue c)])
      ++ (dispatchPutScalar (st.sinks + 1) "loss" a
      ++ (dispatchPutScalar (st.sinks + 1) "accuracy" b
      ++ dispatchPutScalar (st.sinks + 1) "raw_count" c)) := by
  have e1 : normalizeTag "tower0/loss-summary" = "loss" := by decide
  have e2 : normalizeTag "accuracy-summary" = "accuracy" := by decide
  have e3 : normalizeTag "raw_count" = "raw_count" := by decide
  show dispatchPutSummary (st.sinks + 1) _
      ++ ((Monitors.normalizedScalarFields _).map
            (fun p => dispatchPutScalar (st.sinks + 1) p.1 p.2)).flatten = _
  rw [show Monitors.normalizedScalarFields
        (Summary.mk [("tower0/loss-summary", SummaryValue.simpleValue a),
                     ("accuracy-summary", SummaryValue.simpleValue b),
                     ("raw_count", SummaryValue.simpleValue c)])
      = [("loss", a), ("accuracy", b), ("raw_count", c)] by
    unfold Monitors.normalizedScalarFields Monitors.scalarFields
    simp [e1, e2, e3]]
  simp [List.flatten]

/-- Claim C9: the `tower[p0-9]+/` substitution is not anchored to the start
of the tag: for any nonempty runs of `p`/digit characters, a tower segment in
the middle of the name is removed (`"grad/tower<run1>/loss"` is dispatched as
`"grad/loss"`), and a name with several tower segments has all of them
removed (`"tower<run1>/a/tower<run2>/b"` normalizes to `"a/b"`). -/
theorem tower_sub_unanchored_all_occurrences (run1 run2 : List Char)
    (h1 : ∀ c ∈ run1, isTowerChar c = true) (h1ne : run1 ≠ [])
    (h2 : ∀ c ∈ run2, isTowerChar c = true) (h2ne : run2 ≠ []) :
    normalizeTag (String.mk ('g' :: 'r' :: 'a' :: 'd' :: '/' ::
        (towerLit ++ (run1 ++ '/' :: ['l', 'o', 's', 's'])))) = "grad/loss" ∧
    normalizeTag (String.mk (towerLit ++ (run1 ++ '/' ::
        ('a' :: '/' :: (towerLit ++ (run2 ++ '/' :: ['b'])))))) = "a/b" ∧
    ∀ (st : MonitorsState) (v : ℚ),
      (Monitors.put_summary st
        (Summary.mk [(String.mk ('g' :: 'r' :: 'a' :: 'd' :: '/' ::
            (towerLit ++ (run1 ++ '/' :: ['l', 'o', 's', 's']))),
          SummaryValue.simpleValue v)])).2
      = dispatchPutSummary (st.sinks + 1)
          (Summary.mk [(String.mk ('g' :: 'r' :: 'a' :: 'd' :: '/' ::
              (towerLit ++ (run1 ++ '/' :: ['l', 'o', 's', 's']))),
            SummaryValue.simpleValue v)])
        ++ dispatchPutScalar (st.sinks + 1) "grad/loss" v := by
  have hg : ('g' : Char) ≠ 't' := by decide
  have hr : ('r' : Char) ≠ 't' := by decide
  have ha : ('a' : Char) ≠ 't' := by decide
  have hd : ('d' : Char) ≠ 't' := by decide
  have hsl : ('/' : Char) ≠ 't' := by decide
  have hm1 : matchTowerAt (towerLit ++ (run1 ++ '/' :: ['l', 'o', 's', 's']))
      = some ['l', 'o', 's', 's'] := by
    rw [matchTowerAt_tower_append]
    exact matchTowerBody_run run1 h1 false _ (fun hc => absurd hc h1ne)
  have hsub1 : subTower ('g' :: 'r' :: 'a' :: 'd' :: '/' ::
      (towerLit ++ (run1 ++ '/' :: ['l', 'o', 's', 's'])))
      = ['g', 'r', 'a', 'd', '/', 'l', 'o', 's', 's'] := by
    rw [subTower_cons_none (matchTowerAt_cons_ne _ hg),
        subTower_cons_none (matchTowerAt_cons_ne _ hr),
        subTower_cons_none (matchTowerAt_cons_ne _ ha),
        subTower_cons_none (matchTowerAt_cons_ne _ hd),
        subTower_cons_none (matchTowerAt_cons_ne _ hsl),
        subTower_step_some hm1]
    decide
  have hn1 : normalizeTag (String.mk ('g' :: 'r' :: 'a' :: 'd' :: '/' ::
      (towerLit ++ (run1 ++ '/' :: ['l', 'o', 's', 's'])))) = "grad/loss" := by
    show String.mk (stripSummarySuffix (subTower ('g' :: 'r' :: 'a' :: 'd' :: '/' ::
      (towerLit ++ (run1 ++ '/' :: ['l', 'o', 's', 's']))))) = "grad/loss"
    rw [hsub1]
    decide
  have hm2 : matchTowerAt (towerLit ++ (run1 ++ '/' ::
      ('a' :: '/' :: (towerLit ++ (run2 ++ '/' :: ['b'])))))
      = some ('a' :: '/' :: (towerLit ++ (run2 ++ '/' :: ['b']))) := by
    rw [matchTowerAt_tower_append]
    exact matchTowerBody_run run1 h1 false _ (fun hc => absurd hc h1ne)
  have hm3 : matchTowerAt (towerLit ++ (run2 ++ '/' :: ['b'])) = some ['b'] := by
    rw [matchTowerAt_tower_append]
    exact matchTowerBody_run run2 h2 false _ (fun hc => absurd hc h2ne)
  have hn2 : normalizeTag (String.mk (towerLit ++ (run1 ++ '/' ::
      ('a' :: '/' :: (towerLit ++ (run2 ++ '/' :: ['b'])))))) = "a/b" := by
    show String.mk (stripSummarySuffix (subTower (towerLit ++ (run1 ++ '/' ::
      ('a' :: '/' :: (towerLit ++ (run2 ++ '/' :: ['b'])))))))  = "a/b"
    rw [subTower_step_some hm2,
        subTower_cons_none (matchTowerAt_cons_ne _ ha),
        subTower_cons_none (matchTowerAt_cons_ne _ hsl),
        subTower_step_some hm3]
    decide
  refine ⟨hn1, hn2, ?_⟩
  intro st v
  show dispatchPutSummary (st.sinks + 1) _
      ++ ((Monitors.normalizedScalarFields _).map
            (fun p => dispatchPutScalar (st.sinks + 1) p.1 p.2)).flatten = _
  rw [show Monitors.normalizedScalarFields
        (Summary.mk [(String.mk ('g' :: 'r' :: 'a' :: 'd' :: '/' ::
            (towerLit ++ (run1 ++ '/' :: ['l', 'o', 's', 's']))),
          SummaryValue.simpleValue v)])
      = [("grad/loss", v)] by
    unfold Monitors.normalizedScalarFields Monitors.scalarFields
    simp [hn1]]
  simp [List.flatten]

/-- Witness for C9 at `run1 = ['0']`, `run2 = ['p', '1']`: the mid-name
segment `tower0/` and both segments of a two-segment name are removed. -/
theorem tower_sub_unanchored_all_occurrences_witness :
    normalizeTag "grad/tower0/loss" = "grad/loss" ∧
    normalizeTag "tower0/a/towerp1/b" = "a/b" := by
  have h := tower_sub_unanchored_all_occurrences ['0'] ['p', '1']
    (by decide) (by decide) (by decide) (by decide)
  exact ⟨h.1, h.2.1⟩

/-- Counterexample to claim C5 as stated: on a hub with one caller-supplied
sink, `setup_graph` delivers no `setupGraph` call to sink 0 — the
caller-supplied sink is skipped; only the internal store (index 1) is set up. -/
theorem setup_graph_skips_caller_sinks_cex :
    (0, SinkCall.setupGraph ⟨2⟩) ∉
      (Monitors.setup_graph ⟨1, none, ScalarHistory.empty⟩ ⟨2⟩).2 := by
  decide

/-- Claim C5 (amended): the hub's `setup_graph` stores the trainer context and
invokes `setup_graph` only on the internal scalar-history store (the monitor
at index `sinks`); no caller-supplied sink receives any call. -/
theorem setup_graph_only_internal_store (st : MonitorsState) (t : Trainer) :
    (Monitors.setup_graph st t).1.trainer = some t ∧
    (Monitors.setup_graph st t).2 = [(st.sinks, SinkCall.setupGraph t)] ∧
    ∀ i, i < st.sinks → ∀ c, (i, c) ∉ (Monitors.setup_graph st t).2 := by
  refine ⟨rfl, rfl, ?_⟩
  intro i hi c hmem
  have h := List.mem_singleton.mp hmem
  have h1 : i = st.sinks := congrArg Prod.fst h
  omega

/-- Witness for the amended C5: a hub with two caller-supplied sinks stores
the context, and sink 1 receives no call. -/
theorem setup_graph_only_internal_store_witness :
    (Monitors.setup_graph ⟨2, none, ScalarHistory.empty⟩ ⟨7⟩).1.trainer = some ⟨7⟩ ∧
    (1, SinkCall.setupGraph ⟨7⟩) ∉
      (Monitors.setup_graph ⟨2, none, ScalarHistory.empty⟩ ⟨7⟩).2 :=
  ⟨(setup_graph_only_internal_store ⟨2, none, ScalarHistory.empty⟩ ⟨7⟩).1,
   (setup_graph_only_internal_store ⟨2, none, ScalarHistory.empty⟩ ⟨7⟩).2.2
     1 (by decide) (SinkCall.setupGraph ⟨7⟩)⟩

/-- Claim C6: `Monitors.put` coerces the incoming value with `float()` before
dispatching; a non-coercible value raises out of the hub (no silent skip), and
on success every monitor — caller-supplied and the internal store — receives
the coerced float value through the scalar channel. -/
theorem put_coerces_to_float (st : MonitorsState) (name : String) (val : PyVal) :
    (pyFloat val = none →
      Monitors.put st name val = Except.error "float() failed: non-numeric value") ∧
    (∀ q : ℚ, pyFloat val = some q →
      Monitors.put st name val = Except.ok (Monitors.put_scalar st name q) ∧
      ∀ i, i < st.sinks + 1 →
        (i, SinkCall.putScalar name q) ∈ (Monitors.put_scalar st name q).2) := by
  constructor
  · intro h
    unfold Monitors.put
    rw [h]
  · intro q h
    constructor
    · unfold Monitors.put
      rw [h]
    · intro i hi
      show (i, SinkCall.putScalar name q) ∈
        dispatchPutScalar (st.sinks + 1) name q ++ dispatchPutSummary (st.sinks + 1) _
      refine List.mem_append.mpr (Or.inl ?_)
      exact List.mem_map.mpr ⟨i, List.mem_range.mpr hi, rfl⟩

/-- Witness for C6: a non-numeric value raises; the numeric value 3 reaches
sink 0 coerced. -/
theorem put_coerces_to_float_witness :
    Monitors.put ⟨1, none, ScalarHistory.empty⟩ "x" PyVal.nonNumeric
      = Except.error "float() failed: non-numeric value" ∧
    (0, SinkCall.putScalar "x" 3) ∈
      (Monitors.put_scalar ⟨1, none, ScalarHistory.empty⟩ "x" 3).2 :=
  ⟨(put_coerces_to_float ⟨1, none, ScalarHistory.empty⟩ "x" PyVal.nonNumeric).1 rfl,
   ((put_coerces_to_float ⟨1, none, ScalarHistory.empty⟩ "x" (PyVal.num 3)).2 3 rfl).2
     0 (by decide)⟩

/- ### Claims about `JSONWriter` and the no-op fallback sinks. -/

theorem Row.set_ne_nil (r : Row) (k : String) (v : ℚ) : Row.set r k v ≠ [] := by
  cases r with
  | nil => simp [Row.set]
  | cons p rest =>
    obtain ⟨k', v'⟩ := p
    unfold Row.set
    split <;> simp

theorem Row.get_set_self (r : Row) (k : String) (v : ℚ) :
    Row.get (Row.set r k v) k = some v := by
  induction r with
  | nil => simp [Row.set, Row.get]
  | cons p rest ih =>
    obtain ⟨k', v'⟩ := p
    unfold Row.set
    by_cases h : k' = k
    · rw [if_pos h]
      simp [Row.get]
    · rw [if_neg h]
      unfold Row.get
      rw [if_neg h]
      exact ih

theorem Row.get_set_ne (r : Row) (k k2 : String) (v : ℚ) (h : k ≠ k2) :
    Row.get (Row.set r k v) k2 = Row.get r k2 := by
  induction r with
  | nil => simp [Row.set, Row.get, h]
  | cons p rest ih =>
    obtain ⟨k', v'⟩ := p
    unfold Row.set
    by_cases h2 : k' = k
    · rw [if_pos h2]
      unfold Row.get
      rw [if_neg h, if_neg (h2 ▸ h)]
    · rw [if_neg h2]
      unfold Row.get
      by_cases h3 : k' = k2
      · rw [if_pos h3, if_pos h3]
      · rw [if_neg h3, if_neg h3]
        exact ih

/-- Claim C7: `JSONWriter._push` is idempotent — a second flush with no
intervening `put_scalar` changes nothing, flushing an empty pending row is a
no-op on the whole state, and a non-empty flush stamps the pending row with
the epoch/step counters, appends it to the row sequence, clears the pending
row and persists the rows. -/
theorem json_push_idempotent (st : JSONWriterState) (e g e2 g2 : ℚ) :
    JSONWriter.push e2 g2 (JSONWriter.push e g st) = JSONWriter.push e g st ∧
    (st.stat_now = [] → JSONWriter.push e g st = st) ∧
    (st.stat_now ≠ [] →
      JSONWriter.push e g st =
        { stats := st.stats
            ++ [Row.set (Row.set st.stat_now "epoch_num" e) "global_step" g],
          stat_now := [],
          fileContent := st.stats
            ++ [Row.set (Row.set st.stat_now "epoch_num" e) "global_step" g] }) := by
  have hempty : ∀ (e' g' : ℚ) (s : JSONWriterState), s.stat_now = [] →
      JSONWriter.push e' g' s = s := by
    intro e' g' s hs
    unfold JSONWriter.push
    rw [if_neg (by rw [hs]; simp)]
  by_cases h : st.stat_now = []
  · refine ⟨?_, fun _ => hempty e g st h, fun hne => absurd h hne⟩
    rw [hempty e g st h, hempty e2 g2 st h]
  · have hlen : st.stat_now.length ≠ 0 := fun h0 => h (List.length_eq_zero.mp h0)
    have hpush : JSONWriter.push e g st =
        { stats := st.stats
            ++ [Row.set (Row.set st.stat_now "epoch_num" e) "global_step" g],
          stat_now := [],
          fileContent := st.stats
            ++ [Row.set (Row.set st.stat_now "epoch_num" e) "global_step" g] } := by
      unfold JSONWriter.push
      rw [if_pos hlen]
    refine ⟨?_, fun habs => absurd habs h, fun _ => hpush⟩
    rw [hpush, hempty e2 g2 _ rfl]

/-- Witness for C7: flushing twice equals flushing once on a one-entry pending
row; flushing an empty pending row is the identity; the non-empty flush
produces the stamped row. -/
theorem json_push_idempotent_witness :
    JSONWriter.push 3 4 (JSONWriter.push 1 2 ⟨[], [("loss", (1 : ℚ)/2)], []⟩)
      = JSONWriter.push 1 2 ⟨[], [("loss", (1 : ℚ)/2)], []⟩ ∧
    JSONWriter.push 1 2 (⟨[], [], []⟩ : JSONWriterState) = ⟨[], [], []⟩ ∧
    JSONWriter.push 1 2 ⟨[], [("loss", (1 : ℚ)/2)], []⟩
      = ⟨[Row.set (Row.set [("loss", (1 : ℚ)/2)] "epoch_num" 1) "global_step" 2],
         [],
         [Row.set (Row.set [("loss", (1 : ℚ)/2)] "epoch_num" 1) "global_step" 2]⟩ :=
  ⟨(json_push_idempotent ⟨[], [("loss", (1 : ℚ)/2)], []⟩ 1 2 3 4).1,
   (json_push_idempotent ⟨[], [], []⟩ 1 2 3 4).2.1 rfl,
   (json_push_idempotent ⟨[], [("loss", (1 : ℚ)/2)], []⟩ 1 2 3 4).2.2 (by decide)⟩

/-- Claim C10: at a non-empty flush the reserved keys are stamped last, so
scalars consumed under the names `"epoch_num"` or `"global_step"` before the
flush are silently overwritten by the counter values in the appended row. -/
theorem push_reserved_keys_overwrite (st : JSONWriterState) (e g v1 v2 : ℚ) :
    ∃ row : Row,
      (JSONWriter.push e g
        (JSONWriter.put_scalar (JSONWriter.put_scalar st "epoch_num" v1)
          "global_step" v2)).stats
        = st.stats ++ [row]
      ∧ Row.get row "epoch_num" = some e
      ∧ Row.get row "global_step" = some g := by
  refine ⟨Row.set (Row.set (Row.set (Row.set st.stat_now "epoch_num" v1)
      "global_step" v2) "epoch_num" e) "global_step" g, ?_, ?_, ?_⟩
  · show (JSONWriter.push e g
      { st with
          stat_now := Row.set (Row.set st.stat_now "epoch_num" v1)
            "global_step" v2 }).stats = _
    unfold JSONWriter.push
    rw [if_pos (fun h0 => Row.set_ne_nil _ _ _ (List.length_eq_zero.mp h0))]
  · rw [Row.get_set_ne _ _ _ _ (by decide), Row.get_set_self]
  · rw [Row.get_set_self]

/-- Claim C8: constructing the JSON sink or the event-log sink with no (or an
empty) log directory yields the no-op fallback, whose every lifecycle method
never raises and has no effect beyond `setup_graph` recording the trainer
context. -/
theorem noop_sink_soft_fail :
    (∀ d, LOG_DIR_isSet d = false →
      JSONWriter.new d = ConstructedSink.noOp ∧
      TFSummaryWriter.new d = ConstructedSink.noOp) ∧
    (∀ (st : NoOpMonitorState) (t : Trainer),
      NoOpMonitor.setup_graph st t = Except.ok { trainer := some t }) ∧
    (∀ (st : NoOpMonitorState) (s : Summary),
      NoOpMonitor.put_summary st s = Except.ok st) ∧
    (∀ (st : NoOpMonitorState) (name : String) (val : PyVal),
      NoOpMonitor.put st name val = Except.ok st) ∧
    (∀ (st : NoOpMonitorState) (name : String) (val : PyVal),
      NoOpMonitor.put_scalar st name val = Except.ok st) ∧
    (∀ st : NoOpMonitorState, NoOpMonitor.trigger_step st = Except.ok st) ∧
    (∀ st : NoOpMonitorState, NoOpMonitor.trigger_epoch st = Except.ok st) ∧
    (∀ st : NoOpMonitorState, NoOpMonitor.after_train st = Except.ok st) := by
  refine ⟨?_, fun st t => rfl, fun st s => rfl, fun st n v => rfl, fun st n v => rfl,
    fun st => rfl, fun st => rfl, fun st => rfl⟩
  intro d hd
  constructor
  · unfold JSONWriter.new
    rw [hd]
    rfl
  · unfold TFSummaryWriter.new
    rw [hd]
    rfl

/-- Witness for C8: with an unset log directory, both constructors fall back
to the no-op sink. -/
theorem noop_sink_soft_fail_witness :
    JSONWriter.new none = ConstructedSink.noOp ∧
    TFSummaryWriter.new none = ConstructedSink.noOp :=
  noop_sink_soft_fail.1 none rfl
